import Mathlib

/-!
Verification of the textsmith command-interpretation core: the object
resolver (`match_object`, `matches_name`, `get_attribute_value` from
`textsmith/logic.py`) and the command parser boundary (`eval`, `parse`,
`handle_exception`, whose behaviour is fixed by the specification and the
test suite).  Python strings are modelled as Lean `String`, Python lists as
Lean `List`, and Python dictionaries for the attribute bag as association
lists.  All definitions are executable.
-/

namespace Textsmith

/-! ## Python string primitives -/

/-- Python `str.strip()`: remove leading and trailing whitespace. -/
def pyStrip (s : String) : String :=
  ⟨((s.data.dropWhile Char.isWhitespace).reverse.dropWhile Char.isWhitespace).reverse⟩

/-- Python `str.lower()`: lowercase every character. -/
def pyLower (s : String) : String :=
  ⟨s.data.map Char.toLower⟩

/-- Helper for `pySplit`: walk the characters accumulating the current word
(in reverse); whitespace runs separate words and produce no empty words. -/
def pySplitAux : List Char → List Char → List String
  | [], [] => []
  | [], acc => [⟨acc.reverse⟩]
  | c :: cs, acc =>
    if c.isWhitespace then
      match acc with
      | [] => pySplitAux cs []
      | _ => ⟨acc.reverse⟩ :: pySplitAux cs []
    else pySplitAux cs (c :: acc)

/-- Python `str.split()` with no argument: split on runs of whitespace,
discarding empty pieces. -/
def pySplit (s : String) : List String :=
  pySplitAux s.data []

/-- Python `" ".join(word_list)`. -/
def pyJoin (word_list : List String) : String :=
  String.intercalate " " word_list

/-- Python `s[1:]` (slicing is by code points). -/
def strSlice1 (s : String) : String :=
  ⟨s.data.drop 1⟩

/-- Python `int(s)` on a string of decimal digits. -/
def pyInt (s : String) : Nat :=
  s.data.foldl (fun acc c => acc * 10 + (c.toNat - 48)) 0

/-! ## Data model

A world object (`Object`) is a Python dictionary in the source; the resolver
reads its `"id"` entry, its `defaults.NAME` entry (`obj.get(NAME, "")`) and
its `defaults.ALIAS` entry (`obj.get(ALIAS, [])`).  We model exactly those
three fields, keeping `Option` where the source supplies a `.get` default. -/

structure Object where
  id : Int
  /-- the `defaults.NAME` entry; `none` models an absent key. -/
  name : Option String
  /-- the `defaults.ALIAS` entry; `none` models an absent key. -/
  aliases : Option (List String)
  deriving Repr, DecidableEq

/-- The per-user context snapshot handed to `match_object`: the acting
user's object, the current room's object, and the sequences of exits, other
users and things in the room. -/
structure Context where
  user : Object
  room : Object
  exits : List Object
  users : List Object
  things : List Object
  deriving Repr, DecidableEq

/-- Modelled from the spec: `defaults.USER_ALIASES` (the module is not in
the sources) is the fixed small set of self-aliases such as "me"/"self". -/
def USER_ALIASES : List String := ["me", "self"]

/-- Modelled from the spec: `defaults.ROOM_ALIASES` (the module is not in
the sources) is the fixed small set of here-aliases. -/
def ROOM_ALIASES : List String := ["here"]

/-- Modelled from the spec: `defaults.MATCH_OBJECT_ID` (the module is not in
the sources) recognises a word consisting of "#" followed by digits. -/
def MATCH_OBJECT_ID (w : String) : Bool :=
  match w.data with
  | '#' :: rest => !rest.isEmpty && rest.all Char.isDigit
  | _ => false

/-! ## The object resolver (`textsmith/logic.py`) -/

/-- `Logic.matches_name(name, obj)`: case-insensitive match of `name`
against the object's display name or any of its aliases. -/
def matches_name (name : String) (obj : Object) : Bool :=
  let name := pyLower name
  let obj_name := pyLower (obj.name.getD "")
  if obj_name == name then true
  else
    let alias_list := (obj.aliases.getD []).map pyLower
    if alias_list.contains name then true else false

/-- The candidate pool built inside `match_object`: the acting user, the
current room, then the exits, other users and things, in that order. -/
def candidate_pool (ctx : Context) : List Object :=
  [ctx.user, ctx.room] ++ ctx.exits ++ ctx.users ++ ctx.things

/-- The name/alias matching loop of `match_object` (its `for word in words`
loop): grow `word_list` one word at a time, at each step append to
`matched` every candidate matching the joined prefix, and return as soon as
`matched` is non-empty. -/
def match_loop (candidates : List Object) :
    List String → List String → List Object → List Object
  | [], _, matched => matched
  | word :: rest, word_list, matched =>
    let word_list2 := word_list ++ [word]
    let name := pyJoin word_list2
    let matched2 := matched ++ candidates.filter (fun obj => matches_name name obj)
    if matched2.isEmpty then match_loop candidates rest word_list2 matched2
    else matched2

/-- `Logic.match_object(identifier, context)`: resolve a user-entered
identifier to the sequence of matching objects in the context. -/
def match_object (identifier : String) (ctx : Context) : List Object :=
  -- identifier = identifier.strip().lower()
  let identifier := pyLower (pyStrip identifier)
  if identifier = "" then []
  else
    let words := pySplit identifier
    match words with
    | [] => []  -- unreachable: a non-empty stripped string has a first word
    | w0 :: _ =>
      if USER_ALIASES.contains w0 then [ctx.user]
      else if ROOM_ALIASES.contains w0 then [ctx.room]
      else
        let candidate_objects := candidate_pool ctx
        if MATCH_OBJECT_ID w0 then
          let object_id : Int := Int.ofNat (pyInt (strSlice1 w0))
          candidate_objects.filter (fun obj => obj.id == object_id)
        else
          match_loop candidate_objects words [] []

/-! ## Attribute values (`Logic.get_attribute_value`)

The object carries an open attribute bag (a Python dictionary).  We model
the values that matter — `None`, strings, integers and booleans — and the
bag as an association list with unique keys (Python dictionary). -/

inductive PyValue where
  | none
  | str (s : String)
  | int (n : Int)
  | bool (b : Bool)
  deriving Repr, DecidableEq

/-- Python `str(val)`. -/
def pyStr : PyValue → String
  | PyValue.none => "None"
  | PyValue.str s => s
  | PyValue.int n => toString n
  | PyValue.bool b => if b then "True" else "False"

/-- A Python dictionary from attribute names to values. -/
def PyDict := List (String × PyValue)

/-- Modelled from `logic.py`'s own docstring: `defaults.IS_SCRIPT` (the
module is not in the sources) is the script marker `"#!"`. -/
def IS_SCRIPT : String := "#!"

/-- `Logic.get_attribute_value(obj, attribute)`: the empty string when the
attribute is absent or `None`, otherwise `str(val)`.  The source checks
whether a string value's stripped form starts with the script marker, but
the body of that branch is `pass`, so execution falls through to
`return str(val)` in every case. -/
def get_attribute_value (obj : PyDict) (attr : String) : String :=
  match List.lookup attr obj with
  | Option.some val =>
    if val ≠ PyValue.none then
      match val with
      | PyValue.str s =>
        if (pyStrip s).startsWith IS_SCRIPT then
          -- source: `pass` — the script is never evaluated
          pyStr val
        else pyStr val
      | _ => pyStr val
    else ""
  | Option.none => ""

/-! ## The command parser (`textsmith/parser.py`)

`parser.py` itself is not among the sources; only its test suite is.  The
definitions below are therefore modelled from the spec (§4.1) and the
observable calls asserted by `tests/test_parser.py`.  Side effects
(structured log entries, messages emitted to the user, dispatches to
external verb handlers) are recorded as an explicit list of `Effect`s. -/

/-- An exception value: only its detail string is observable. -/
structure Exn where
  detail : String
  deriving Repr, DecidableEq

/-- The observable side effects of the parser boundary. -/
inductive Effect where
  /-- one structured log entry with the full context of a caught exception -/
  | log (user_id : Nat) (connection_id : String) (message_id : String)
      (message : String) (exc : Exn)
  /-- one message emitted to a user's message queue -/
  | emit (user_id : Nat) (message : String)
  /-- dispatch of a shortcut handler (say / shout / emote / tell) -/
  | shortcut (handler : String) (user_id : Nat) (connection_id : String)
      (message_id : String) (remainder : String)
  /-- dispatch into the external verb registry -/
  | verb (user_id : Nat) (connection_id : String) (message_id : String)
      (verb_name : String) (args : String)
  deriving Repr, DecidableEq

/-- Modelled from the spec: `html.escape` applied by `eval` before parsing,
escaping the five markup-significant characters. -/
def htmlEscape (s : String) : String :=
  s.data.foldr
    (fun c acc =>
      (match c with
       | '&' => "&amp;"
       | '<' => "&lt;"
       | '>' => "&gt;"
       | '"' => "&quot;"
       | '\x27' => "&#x27;"
       | _ => String.singleton c) ++ acc) ""

/-- Modelled from the spec and `test_handle_exception`: the generic apology
sent to the user, referencing only the message id, never the exception. -/
def apologyText (message_id : String) : String :=
  "Sorry. Something went wrong when processing your command. id: " ++ message_id

/-- Modelled from the spec and `test_handle_exception`:
`Parser.handle_exception` writes one structured log entry carrying the user
id, connection id, message id, raw message and exception, then emits one
generic apology to the user. -/
def handle_exception (user_id : Nat) (connection_id message_id message : String)
    (ex : Exn) : List Effect :=
  [Effect.log user_id connection_id message_id message ex,
   Effect.emit user_id (apologyText message_id)]

/-- Split a non-shortcut command into its first whitespace-delimited token
(the verb) and everything after the first whitespace run. -/
def splitVerb (t : String) : String × String :=
  let w := t.data.takeWhile (fun c => !c.isWhitespace)
  let rest := (t.data.dropWhile (fun c => !c.isWhitespace)).dropWhile Char.isWhitespace
  (⟨w⟩, ⟨rest⟩)

/-- Modelled from the spec (§4.1) and the parser tests: `Parser.parse`.
Trim; empty input is a silent no-op; a leading `"`/`!`/`:`/`@` dispatches
the say / shout / emote / tell handler with the text after the shortcut
character; otherwise the first token is dispatched as a verb with the rest
as its argument string. -/
def parse (user_id : Nat) (connection_id message_id text : String) : List Effect :=
  let t := pyStrip text
  match t.data with
  | [] => []
  | c :: rest =>
    if c = '"' then [Effect.shortcut "say" user_id connection_id message_id ⟨rest⟩]
    else if c = '!' then
      [Effect.shortcut "shout" user_id connection_id message_id ⟨rest⟩]
    else if c = ':' then
      [Effect.shortcut "emote" user_id connection_id message_id ⟨rest⟩]
    else if c = '@' then
      [Effect.shortcut "tell" user_id connection_id message_id ⟨rest⟩]
    else
      let vb := splitVerb t
      [Effect.verb user_id connection_id message_id vb.1 vb.2]

/-- Modelled from the spec (§4.1) and `test_eval_fail`: `Parser.eval`
escapes the raw input, then calls `parse`; any exception `parse` raises is
caught at this boundary and routed to `handle_exception` — which receives
the original raw message for the structured log entry — and is never
propagated.  The possibly-raising parse step is a parameter so the boundary
can be stated for every behaviour of `parse`. -/
def pyEval (parseFn : Nat → String → String → String → Except Exn (List Effect))
    (user_id : Nat) (connection_id message_id message : String) : List Effect :=
  let cleaned := htmlEscape message
  match parseFn user_id connection_id message_id cleaned with
  | Except.ok effs => effs
  | Except.error ex => handle_exception user_id connection_id message_id message ex

/-! ## Spec-side definition for the progressive matching claim -/

/-- The candidates matching the first `k` words of the identifier, joined
with single spaces. -/
def prefix_matches (candidates : List Object) (words : List String) (k : Nat) :
    List Object :=
  candidates.filter (fun obj => matches_name (pyJoin (words.take k)) obj)

/-- One round of the spec's progressive matching: try prefix length `k`,
and on no match move to `k + 1`; the remaining number of lengths still to
try is `fuel`. -/
def spec_try (candidates : List Object) (words : List String) :
    Nat → Nat → List Object
  | _, 0 => []
  | k, fuel + 1 =>
    let m := prefix_matches candidates words k
    if m.isEmpty then spec_try candidates words (k + 1) fuel else m

/-- Stated from the spec's words, for comparison with `match_object`:
progressive shortest-prefix matching tries prefix lengths 1, 2, … up to the
full word count, returns the matches at the first length that yields any,
and the empty sequence when no length does. -/
def spec_shortest (candidates : List Object) (words : List String) :
    List Object :=
  spec_try candidates words 1 words.length

/-! ## Concrete fixtures used to instantiate the theorems -/

def aliceObj : Object := ⟨1, Option.some "Alice", Option.some ["al"]⟩

def lobbyObj : Object := ⟨2, Option.some "Lobby", Option.none⟩

def redSword : Object := ⟨10, Option.some "Red Sword", Option.some ["blade"]⟩

def plainSword : Object := ⟨42, Option.some "sword", Option.none⟩

def sampleCtx : Context := ⟨aliceObj, lobbyObj, [], [], [redSword, plainSword]⟩

def swordCopy : Object := ⟨42, Option.some "copy", Option.none⟩

/-- A context whose snapshot is inconsistent: two things share id 42. -/
def dupCtx : Context := ⟨aliceObj, lobbyObj, [], [], [plainSword, swordCopy]⟩

/-! ## Helper lemmas -/

theorem string_append_empty (s : String) : s ++ "" = s := by
  cases s with
  | mk l => show String.mk (l ++ []) = String.mk l
            rw [List.append_nil]

theorem pySplit_empty : pySplit "" = [] := rfl

theorem pyStrip_of_all_whitespace (s : String)
    (h : ∀ c ∈ s.data, c.isWhitespace = true) : pyStrip s = "" := by
  unfold pyStrip
  have h1 : s.data.dropWhile Char.isWhitespace = [] := by
    rw [List.dropWhile_eq_nil_iff]
    exact fun c hc => h c hc
  rw [h1]
  rfl

theorem matches_name_eq (name : String) (obj : Object) :
    matches_name name obj =
      (pyLower (obj.name.getD "") == pyLower name
        || ((obj.aliases.getD []).map pyLower).contains (pyLower name)) := by
  unfold matches_name
  by_cases h : pyLower (obj.name.getD "") == pyLower name
  · simp [h]
  · simp only [Bool.false_or, if_neg h, h]
    by_cases h2 : ((obj.aliases.getD []).map pyLower).contains (pyLower name) <;>
      simp [h2]

theorem string_contains_iff (l : List String) (a : String) :
    l.contains a = true ↔ a ∈ l :=
  List.elem_iff

theorem match_object_branch (identifier : String) (ctx : Context) (w0 : String)
    (rest : List String)
    (hsplit : pySplit (pyLower (pyStrip identifier)) = w0 :: rest) :
    match_object identifier ctx =
      (if USER_ALIASES.contains w0 then [ctx.user]
       else if ROOM_ALIASES.contains w0 then [ctx.room]
       else if MATCH_OBJECT_ID w0 then
         (candidate_pool ctx).filter
           (fun obj => obj.id == Int.ofNat (pyInt (strSlice1 w0)))
       else match_loop (candidate_pool ctx) (w0 :: rest) [] []) := by
  have hne : pyLower (pyStrip identifier) ≠ "" := by
    intro he
    rw [he] at hsplit
    simp [pySplit, pySplitAux] at hsplit
  simp only [match_object, if_neg hne, hsplit]

/-! ## Claim theorems -/

/-- C6: when the first normalized word of the identifier is a recognized
self alias, `match_object` returns exactly the acting user's object,
ignoring the remaining words; otherwise, when it is a recognized here
alias, it returns exactly the current room's object.  The self-alias check
precedes the here-alias check. -/
theorem match_object_special_aliases (identifier : String) (ctx : Context)
    (w0 : String) (rest : List String)
    (hsplit : pySplit (pyLower (pyStrip identifier)) = w0 :: rest) :
    (USER_ALIASES.contains w0 = true → match_object identifier ctx = [ctx.user])
    ∧ (USER_ALIASES.contains w0 = false → ROOM_ALIASES.contains w0 = true →
        match_object identifier ctx = [ctx.room]) := by
  constructor
  · intro hu
    rw [match_object_branch identifier ctx w0 rest hsplit, if_pos hu]
  · intro hu hr
    rw [match_object_branch identifier ctx w0 rest hsplit,
      if_neg (fun hcon => by rw [hu] at hcon; exact absurd hcon (by decide)),
      if_pos hr]

/-- Witness for C6 at the identifier `" ME ignored"` (self alias wins,
trailing words ignored) and `"HERE now"` (here alias). -/
theorem match_object_special_aliases_witness :
    (pySplit (pyLower (pyStrip " ME ignored")) = "me" :: ["ignored"]
      ∧ match_object " ME ignored" sampleCtx = [sampleCtx.user])
    ∧ (pySplit (pyLower (pyStrip "HERE now")) = "here" :: ["now"]
      ∧ match_object "HERE now" sampleCtx = [sampleCtx.room]) :=
  ⟨⟨by decide,
    (match_object_special_aliases " ME ignored" sampleCtx "me" ["ignored"]
      (by decide)).1 (by decide)⟩,
   ⟨by decide,
    (match_object_special_aliases "HERE now" sampleCtx "here" ["now"]
      (by decide)).2 (by decide) (by decide)⟩⟩

/-- C7: `matches_name` holds exactly when the name equals the display name
case-insensitively or is case-insensitively among the aliases, and its
value is invariant under re-casing the name, the display name and every
alias. -/
theorem matches_name_case_insensitive (name : String) (obj : Object) :
    (matches_name name obj = true ↔
      (pyLower name = pyLower (obj.name.getD "")
        ∨ pyLower name ∈ (obj.aliases.getD []).map pyLower))
    ∧ (∀ (name2 : String) (obj2 : Object),
        pyLower name2 = pyLower name →
        pyLower (obj2.name.getD "") = pyLower (obj.name.getD "") →
        (obj2.aliases.getD []).map pyLower = (obj.aliases.getD []).map pyLower →
        matches_name name2 obj2 = matches_name name obj) := by
  constructor
  · rw [matches_name_eq, Bool.or_eq_true, beq_iff_eq, string_contains_iff]
    exact or_congr eq_comm Iff.rfl
  · intro n2 o2 h1 h2 h3
    rw [matches_name_eq, matches_name_eq, h1, h2, h3]

/-- Witness for C7: `"BLADE"` against the red sword (alias match through a
case change) and `"Sword"` against the plain sword (name match). -/
theorem matches_name_case_insensitive_witness :
    (matches_name "BLADE" redSword = true ↔
      (pyLower "BLADE" = pyLower (redSword.name.getD "")
        ∨ pyLower "BLADE" ∈ (redSword.aliases.getD []).map pyLower))
    ∧ matches_name "Sword" plainSword = matches_name "sWORD" plainSword :=
  ⟨(matches_name_case_insensitive "BLADE" redSword).1,
   (matches_name_case_insensitive "sWORD" plainSword).2 "Sword" plainSword
     (by decide) rfl rfl⟩

/-- C8: an identifier consisting only of whitespace (including the empty
string) makes `match_object` return the empty sequence, for every
context. -/
theorem match_object_whitespace_empty (identifier : String) (ctx : Context)
    (h : ∀ c ∈ identifier.data, c.isWhitespace = true) :
    match_object identifier ctx = [] := by
  have h1 : pyLower (pyStrip identifier) = "" := by
    rw [pyStrip_of_all_whitespace identifier h]
    rfl
  simp [match_object, h1]

/-- Witness for C8 at the identifier `"   "`. -/
theorem match_object_whitespace_empty_witness :
    (∀ c ∈ ("   " : String).data, c.isWhitespace = true)
      ∧ match_object "   " sampleCtx = [] :=
  ⟨by decide, match_object_whitespace_empty "   " sampleCtx (by decide)⟩

/-- C9: `match_object` and `matches_name` are deterministic pure queries:
equal inputs give equal results.  (In this embedding the absence of
argument mutation is definitional: the source writes only to
function-local lists.) -/
theorem resolver_pure_functions (i1 i2 : String) (c1 c2 : Context)
    (n1 n2 : String) (o1 o2 : Object)
    (hi : i1 = i2) (hc : c1 = c2) (hn : n1 = n2) (ho : o1 = o2) :
    match_object i1 c1 = match_object i2 c2
      ∧ matches_name n1 o1 = matches_name n2 o2 := by
  subst hi; subst hc; subst hn; subst ho
  exact ⟨rfl, rfl⟩

/-- Witness for C9 at concrete equal inputs. -/
theorem resolver_pure_functions_witness :
    match_object "sword" sampleCtx = match_object "sword" sampleCtx
      ∧ matches_name "blade" redSword = matches_name "blade" redSword :=
  resolver_pure_functions "sword" "sword" sampleCtx sampleCtx
    "blade" "blade" redSword redSword rfl rfl rfl rfl

/-- C10: `get_attribute_value` returns the empty string when the attribute
is absent or its value is `None`, and otherwise the string representation
of the value; a string value — including one whose stripped form starts
with the script marker `"#!"` — is returned verbatim, never evaluated. -/
theorem get_attribute_value_spec (obj : PyDict) (a : String) :
    (List.lookup a obj = Option.none → get_attribute_value obj a = "")
    ∧ (List.lookup a obj = Option.some PyValue.none →
        get_attribute_value obj a = "")
    ∧ (∀ s : String, List.lookup a obj = Option.some (PyValue.str s) →
        get_attribute_value obj a = s)
    ∧ (∀ v : PyValue, List.lookup a obj = Option.some v → v ≠ PyValue.none →
        get_attribute_value obj a = pyStr v) := by
  refine ⟨?_, ?_, ?_, ?_⟩
  · intro h
    simp [get_attribute_value, h]
  · intro h
    simp [get_attribute_value, h]
  · intro s h
    simp [get_attribute_value, h, pyStr]
  · intro v h hv
    cases v with
    | none => exact absurd rfl hv
    | str s => simp [get_attribute_value, h, pyStr]
    | int n => simp [get_attribute_value, h]
    | bool b => simp [get_attribute_value, h]

/-- Witness for C10 on a dictionary holding a script-marked string, a
`None` value and an integer, plus an absent key. -/
theorem get_attribute_value_spec_witness :
    List.lookup "spell"
        [("spell", PyValue.str " #! magic missile"), ("hp", PyValue.int 7)]
      = Option.some (PyValue.str " #! magic missile")
    ∧ get_attribute_value
        [("spell", PyValue.str " #! magic missile"), ("hp", PyValue.int 7)]
        "spell" = " #! magic missile"
    ∧ get_attribute_value [("gone", PyValue.none)] "gone" = ""
    ∧ get_attribute_value [("hp", PyValue.int 7)] "mana" = ""
    ∧ get_attribute_value [("hp", PyValue.int 7)] "hp" = pyStr (PyValue.int 7) :=
  ⟨by decide,
   (get_attribute_value_spec
      [("spell", PyValue.str " #! magic missile"), ("hp", PyValue.int 7)]
      "spell").2.2.1 " #! magic missile" (by decide),
   (get_attribute_value_spec [("gone", PyValue.none)] "gone").2.1 (by decide),
   (get_attribute_value_spec [("hp", PyValue.int 7)] "mana").1 (by decide),
   (get_attribute_value_spec [("hp", PyValue.int 7)] "hp").2.2.2
     (PyValue.int 7) (by decide) (by decide)⟩

/-- C5: a trimmed input beginning with `"`, `!`, `:` or `@` dispatches the
say, shout, emote or tell handler respectively, with the remainder being
exactly the text after the single shortcut character, untouched. -/
theorem parse_shortcut_dispatch (user_id : Nat)
    (connection_id message_id text : String) (c : Char) (rest : List Char)
    (h : (pyStrip text).data = c :: rest) :
    (c = '"' → parse user_id connection_id message_id text
      = [Effect.shortcut "say" user_id connection_id message_id ⟨rest⟩])
    ∧ (c = '!' → parse user_id connection_id message_id text
      = [Effect.shortcut "shout" user_id connection_id message_id ⟨rest⟩])
    ∧ (c = ':' → parse user_id connection_id message_id text
      = [Effect.shortcut "emote" user_id connection_id message_id ⟨rest⟩])
    ∧ (c = '@' → parse user_id connection_id message_id text
      = [Effect.shortcut "tell" user_id connection_id message_id ⟨rest⟩]) := by
  refine ⟨?_, ?_, ?_, ?_⟩ <;> intro hc <;> subst hc <;> simp [parse, h]

/-- Witness for C5 at the four inputs of the test suite:
`"Hello` → say, `!Hello` → shout, `:waves` → emote, `@user hello` → tell. -/
theorem parse_shortcut_dispatch_witness :
    ((pyStrip "\"Hello").data = '"' :: "Hello".data
      ∧ parse 7 "conn" "mid" "\"Hello"
        = [Effect.shortcut "say" 7 "conn" "mid" "Hello"])
    ∧ parse 7 "conn" "mid" "!Hello"
        = [Effect.shortcut "shout" 7 "conn" "mid" "Hello"]
    ∧ parse 7 "conn" "mid" ":waves"
        = [Effect.shortcut "emote" 7 "conn" "mid" "waves"]
    ∧ parse 7 "conn" "mid" "@user hello"
        = [Effect.shortcut "tell" 7 "conn" "mid" "user hello"] :=
  ⟨⟨by decide,
    (parse_shortcut_dispatch 7 "conn" "mid" "\"Hello" '"' "Hello".data
      (by decide)).1 rfl⟩,
   (parse_shortcut_dispatch 7 "conn" "mid" "!Hello" '!' "Hello".data
      (by decide)).2.1 rfl,
   (parse_shortcut_dispatch 7 "conn" "mid" ":waves" ':' "waves".data
      (by decide)).2.2.1 rfl,
   (parse_shortcut_dispatch 7 "conn" "mid" "@user hello" '@' "user hello".data
      (by decide)).2.2.2 rfl⟩

/-- C3: when `parse` raises, `eval` catches the exception (it is a total
function of its inputs and returns normally), produces exactly one
structured log entry carrying the user id, connection id, message id, the
original raw message and the exception detail, and emits exactly one
apology that contains the message id; the apology is a fixed function of
the message id alone, so the raw exception text never appears in it. -/
theorem eval_exception_boundary
    (parseFn : Nat → String → String → String → Except Exn (List Effect))
    (user_id : Nat) (connection_id message_id message : String) (ex : Exn)
    (h : parseFn user_id connection_id message_id (htmlEscape message)
      = Except.error ex) :
    pyEval parseFn user_id connection_id message_id message
      = [Effect.log user_id connection_id message_id message ex,
         Effect.emit user_id (apologyText message_id)]
    ∧ (∃ a b : String, apologyText message_id = a ++ message_id ++ b)
    ∧ (∀ ex2 : Exn,
        handle_exception user_id connection_id message_id message ex2
          = [Effect.log user_id connection_id message_id message ex2,
             Effect.emit user_id (apologyText message_id)]) := by
  refine ⟨?_, ?_, fun ex2 => rfl⟩
  · simp [pyEval, h, handle_exception]
  · exact ⟨"Sorry. Something went wrong when processing your command. id: ", "",
      by rw [string_append_empty]; rfl⟩

/-- Witness for C3: a parse step that always raises `boom!`, on an input
containing markup so that the raw message logged differs from the escaped
text handed to the parse step. -/
theorem eval_exception_boundary_witness :
    ((fun (_ : Nat) (_ _ _ : String) =>
        (Except.error ⟨"boom!"⟩ : Except Exn (List Effect)))
      7 "conn" "mid" (htmlEscape "Hello <World>") = Except.error ⟨"boom!"⟩)
    ∧ (pyEval
        (fun (_ : Nat) (_ _ _ : String) =>
          (Except.error ⟨"boom!"⟩ : Except Exn (List Effect)))
        7 "conn" "mid" "Hello <World>"
      = [Effect.log 7 "conn" "mid" "Hello <World>" ⟨"boom!"⟩,
         Effect.emit 7 (apologyText "mid")]
    ∧ (∃ a b : String, apologyText "mid" = a ++ "mid" ++ b)
    ∧ (∀ ex2 : Exn,
        handle_exception 7 "conn" "mid" "Hello <World>" ex2
          = [Effect.log 7 "conn" "mid" "Hello <World>" ex2,
             Effect.emit 7 (apologyText "mid")]))
    ∧ htmlEscape "Hello <World>" = "Hello &lt;World&gt;" :=
  ⟨rfl,
   eval_exception_boundary
     (fun (_ : Nat) (_ _ _ : String) =>
       (Except.error ⟨"boom!"⟩ : Except Exn (List Effect)))
     7 "conn" "mid" "Hello <World>" ⟨"boom!"⟩ rfl,
   by decide⟩

theorem bool_not_true {b : Bool} (h : b = false) : ¬ b = true := by
  rw [h]
  exact Bool.false_ne_true

theorem hash_not_in_aliases (w0 : String) (tail : List Char)
    (hw : w0.data = '#' :: tail) (l : List String)
    (hl : ∀ s ∈ l, s.data.head? ≠ Option.some '#') :
    l.contains w0 = false := by
  cases h : l.contains w0 with
  | false => rfl
  | true =>
    exact absurd (show w0.data.head? = Option.some '#' by rw [hw]; rfl)
      (hl w0 ((string_contains_iff l w0).mp h))

theorem matchId_of (w0 : String) (d : Char) (ds : List Char)
    (hw : w0.data = '#' :: d :: ds)
    (hdig : (d :: ds).all Char.isDigit = true) :
    MATCH_OBJECT_ID w0 = true := by
  unfold MATCH_OBJECT_ID
  rw [hw]
  simp [hdig]

theorem match_loop_is_filter (C : List Object) :
    ∀ (ws wl : List String),
      ∃ p : Object → Bool, match_loop C ws wl [] = C.filter p := by
  intro ws
  induction ws with
  | nil =>
    intro wl
    exact ⟨fun _ => false, by simp [match_loop]⟩
  | cons w rest ih =>
    intro wl
    simp only [match_loop, List.nil_append]
    by_cases hm : (C.filter (fun obj => matches_name (pyJoin (wl ++ [w])) obj)).isEmpty
    · rw [if_pos hm, List.isEmpty_iff.mp hm]
      exact ih (wl ++ [w])
    · rw [if_neg hm]
      exact ⟨fun obj => matches_name (pyJoin (wl ++ [w])) obj, rfl⟩

theorem match_loop_eq_spec (C : List Object) :
    ∀ (ws wl : List String),
      match_loop C ws wl [] = spec_try C (wl ++ ws) (wl.length + 1) ws.length := by
  intro ws
  induction ws with
  | nil =>
    intro wl
    rfl
  | cons w rest ih =>
    intro wl
    simp only [match_loop, List.nil_append, List.length_cons]
    simp only [spec_try]
    have hpm : prefix_matches C (wl ++ w :: rest) (wl.length + 1)
        = C.filter (fun obj => matches_name (pyJoin (wl ++ [w])) obj) := by
      unfold prefix_matches
      rw [List.take_append]
      rfl
    rw [hpm]
    by_cases hm : (C.filter (fun obj => matches_name (pyJoin (wl ++ [w])) obj)).isEmpty
    · rw [if_pos hm, if_pos hm, List.isEmpty_iff.mp hm, ih (wl ++ [w])]
      simp [List.append_assoc]
    · rw [if_neg hm, if_neg hm]

theorem match_loop_eq_spec_shortest (C : List Object) (words : List String) :
    match_loop C words [] [] = spec_shortest C words := by
  have h := match_loop_eq_spec C words []
  simpa [spec_shortest] using h

/-- C2: when the first normalized word is "#" followed by digits,
`match_object` parses the digits as an integer and returns every candidate
of the pool — user, room, exits, users, things — whose id equals it, not
only the first, enforcing no uniqueness. -/
theorem match_object_id_matching (identifier : String) (ctx : Context)
    (w0 : String) (rest : List String) (d : Char) (ds : List Char)
    (hsplit : pySplit (pyLower (pyStrip identifier)) = w0 :: rest)
    (hw : w0.data = '#' :: d :: ds)
    (hdig : (d :: ds).all Char.isDigit = true) :
    match_object identifier ctx
      = ([ctx.user, ctx.room] ++ ctx.exits ++ ctx.users ++ ctx.things).filter
          (fun obj => obj.id == Int.ofNat (pyInt (strSlice1 w0))) := by
  have hu := hash_not_in_aliases w0 (d :: ds) hw USER_ALIASES (by decide)
  have hr := hash_not_in_aliases w0 (d :: ds) hw ROOM_ALIASES (by decide)
  rw [match_object_branch identifier ctx w0 rest hsplit,
    if_neg (bool_not_true hu), if_neg (bool_not_true hr),
    if_pos (matchId_of w0 d ds hw hdig)]
  rfl

/-- Witness for C2 at `"#42"` in a context where two things share id 42:
both are returned, in pool order. -/
theorem match_object_id_matching_witness :
    (pySplit (pyLower (pyStrip "#42")) = "#42" :: []
      ∧ ("#42" : String).data = '#' :: '4' :: ['2']
      ∧ ('4' :: ['2']).all Char.isDigit = true)
    ∧ match_object "#42" dupCtx
        = ([dupCtx.user, dupCtx.room] ++ dupCtx.exits ++ dupCtx.users
            ++ dupCtx.things).filter
            (fun obj => obj.id == Int.ofNat (pyInt (strSlice1 "#42")))
    ∧ match_object "#42" dupCtx = [plainSword, swordCopy] :=
  ⟨⟨by decide, by decide, by decide⟩,
   match_object_id_matching "#42" dupCtx "#42" [] '4' ['2']
     (by decide) (by decide) (by decide),
   by decide⟩

/-- C1: when the first normalized word is neither a self/here alias nor an
object-id pattern, `match_object` performs progressive shortest-prefix
matching over the candidate pool: it returns exactly the candidates
matching at the shortest matching prefix length, and the empty sequence if
no prefix length up to the full word count matches. -/
theorem match_object_progressive (identifier : String) (ctx : Context)
    (w0 : String) (rest : List String)
    (hsplit : pySplit (pyLower (pyStrip identifier)) = w0 :: rest)
    (hu : USER_ALIASES.contains w0 = false)
    (hr : ROOM_ALIASES.contains w0 = false)
    (hid : MATCH_OBJECT_ID w0 = false) :
    match_object identifier ctx
      = spec_shortest (candidate_pool ctx) (w0 :: rest) := by
  rw [match_object_branch identifier ctx w0 rest hsplit,
    if_neg (bool_not_true hu), if_neg (bool_not_true hr),
    if_neg (bool_not_true hid)]
  exact match_loop_eq_spec_shortest (candidate_pool ctx) (w0 :: rest)

/-- Witness for C1 at `"Red SWORD"`: no single-word candidate matches
"red", the two-word prefix matches the red sword, and the progressive
search returns exactly that match. -/
theorem match_object_progressive_witness :
    (pySplit (pyLower (pyStrip "Red SWORD")) = "red" :: ["sword"]
      ∧ USER_ALIASES.contains "red" = false
      ∧ ROOM_ALIASES.contains "red" = false
      ∧ MATCH_OBJECT_ID "red" = false)
    ∧ match_object "Red SWORD" sampleCtx
        = spec_shortest (candidate_pool sampleCtx) ("red" :: ["sword"])
    ∧ match_object "Red SWORD" sampleCtx = [redSword] :=
  ⟨⟨by decide, by decide, by decide, by decide⟩,
   match_object_progressive "Red SWORD" sampleCtx "red" ["sword"]
     (by decide) (by decide) (by decide) (by decide),
   by decide⟩

/-- C4: both candidate-pool branches of `match_object` (the #id branch and
the name/alias prefix branch) return a filter of the candidate pool —
acting user, current room, exits, other users, things, in that order — so
the result preserves pool order and each input sequence's internal order,
with no deduplication. -/
theorem match_object_pool_priority (identifier : String) (ctx : Context)
    (w0 : String) (rest : List String)
    (hsplit : pySplit (pyLower (pyStrip identifier)) = w0 :: rest)
    (hu : USER_ALIASES.contains w0 = false)
    (hr : ROOM_ALIASES.contains w0 = false) :
    ∃ p : Object → Bool,
      match_object identifier ctx
        = ([ctx.user, ctx.room] ++ ctx.exits ++ ctx.users ++ ctx.things).filter p := by
  rw [match_object_branch identifier ctx w0 rest hsplit,
    if_neg (bool_not_true hu), if_neg (bool_not_true hr)]
  by_cases hid : MATCH_OBJECT_ID w0 = true
  · rw [if_pos hid]
    exact ⟨fun obj => obj.id == Int.ofNat (pyInt (strSlice1 w0)), rfl⟩
  · rw [if_neg hid]
    obtain ⟨p, hp⟩ := match_loop_is_filter (candidate_pool ctx) (w0 :: rest) []
    exact ⟨p, by rw [hp]; rfl⟩

/-- Witness for C4 at `"sword"` in the sample context. -/
theorem match_object_pool_priority_witness :
    (pySplit (pyLower (pyStrip "sword")) = "sword" :: []
      ∧ USER_ALIASES.contains "sword" = false
      ∧ ROOM_ALIASES.contains "sword" = false)
    ∧ (∃ p : Object → Bool,
        match_object "sword" sampleCtx
          = ([sampleCtx.user, sampleCtx.room] ++ sampleCtx.exits
              ++ sampleCtx.users ++ sampleCtx.things).filter p) :=
  ⟨⟨by decide, by decide, by decide⟩,
   match_object_pool_priority "sword" sampleCtx "sword" []
     (by decide) (by decide) (by decide)⟩

end Textsmith
